import Mathlib

/-!
# FePilot node-dependency extension — shallow embedding and verification

This file embeds the core logic of the FePilot VS Code extension
(`apps/node-dependency`): the dependency tree model
(`DepNodeProvider.getChildren` / `getDepsInPackageJson`), the package
locator (`findPackageJson`, `resolvePackageDir`, `getPackageJsonFromPath`),
the package-manager detector (`detectPackageManager`), the shell command
builders (`buildInstallCommand`, `buildRemoveCommand`), the remove flow
(`removePackage`) and the registry metadata cache
(`NpmApiService.getPackageInfo`).

Modelling conventions:
* A filesystem path is a list of segments (`Path`); `path.join(p, s)` is
  `p ++ [s]` and `path.resolve(p, '..')` / `path.dirname` is `p.dropLast`.
  Symbolic links are not modelled, so `fs.realpathSync` is the identity.
* The filesystem is a map `Fs : Path → Option (Option Manifest)`:
  `none` means the path does not exist, `some none` means it exists but its
  contents do not parse as a manifest (malformed JSON, a lockfile, a plain
  directory entry, ...), and `some (some m)` means it holds a manifest that
  `JSON.parse` turns into `m`.  `fs.accessSync`-based existence
  (`DepNodeProvider.pathExists`) is `Option.isSome`.
* JavaScript objects keep string-key insertion order, so dependency maps
  are association lists `List (String × String)`.
* External collaborators (`require.resolve`, the npm registry HTTP client,
  the `which pnpm` / `which yarn` probes, the `npm view` types probe) are
  passed in as oracle functions; `try`/`catch` around a fallible oracle is
  modelled by the oracle returning an `Option`.
-/

namespace FePilot

/-- An absolute filesystem path, as a list of segments. -/
abbrev Path := List String

/-- The classification of a declared dependency, `'dep' | 'dev' | 'peer'`
in `node-dependencies.ts`. -/
inductive DepType where
  | dep
  | dev
  | peer
deriving DecidableEq, Repr

/-- `type PackageManager = 'npm' | 'pnpm' | 'yarn'` from `extension.ts`. -/
inductive PM where
  | npm
  | pnpm
  | yarn
deriving DecidableEq, Repr

/-- The parsed contents of a `package.json` (only the fields the embedded
logic reads).  Dependency groups are association lists in the manifest's
own key order; a `none` group models an absent field. -/
structure Manifest where
  name : Option String
  version : Option String
  packageManager : Option String
  dependencies : Option (List (String × String))
  devDependencies : Option (List (String × String))
  peerDependencies : Option (List (String × String))
deriving DecidableEq, Repr

/-- The filesystem: `none` = absent path, `some none` = present but not a
parseable manifest, `some (some m)` = a manifest file parsing to `m`. -/
abbrev Fs := Path → Option (Option Manifest)

/-- `DepNodeProvider.pathExists` (`fs.accessSync` succeeding). -/
def pathExists (fs : Fs) (p : Path) : Bool :=
  (fs p).isSome

/-- `DepNodeProvider.readFileAsJson`: returns the parsed JSON, or `none`
when the file is missing or unreadable (the `catch` branch returns
`null`). -/
def readFileAsJson (fs : Fs) (p : Path) : Option Manifest :=
  (fs p).bind id

/-- First-match association-list lookup, the behaviour of `obj[key]` on a
JavaScript object (keys are unique in parsed JSON). -/
def assocFind {β : Type} (l : List (String × β)) (k : String) : Option β :=
  match l with
  | [] => none
  | (a, b) :: t => if a = k then some b else assocFind t k

/-- `Map.set` behaviour: overwrite the entry for `k` in place, appending a
fresh entry at the end when `k` is new. -/
def setAssoc {β : Type} (l : List (String × β)) (k : String) (v : β) : List (String × β) :=
  match l with
  | [] => [(k, v)]
  | (a, b) :: t => if a = k then (k, v) :: t else (a, b) :: setAssoc t k v

/-- `front pat s`: does `s` start with `pat`? (character-list version). -/
def listFront : List Char → List Char → Bool
  | [], _ => true
  | _ :: _, [] => false
  | a :: as, b :: bs => a = b && listFront as bs

/-- Does `s` contain `pat` as a contiguous run? (character-list version). -/
def listHasSub (pat : List Char) : List Char → Bool
  | [] => listFront pat []
  | c :: rest => listFront pat (c :: rest) || listHasSub pat rest

/-- `String.prototype.includes`: substring containment. -/
def strIncludes (s pat : String) : Bool :=
  listHasSub pat.data s.data

/-- `packageJson.packageManager.split('@')[0]`: the field value up to the
first `'@'`. -/
def splitAtFirstAt (s : String) : String :=
  String.mk (s.data.takeWhile (fun c => c ≠ '@'))

/-! ## CommandBuilder (`NpmQuickPickProvider`, `extension.ts`) -/

/-- The fields of `IPackage` that `buildInstallCommand` reads (the source
interface carries further display-only fields). -/
structure IPackage where
  name : String
  version : String
deriving DecidableEq, Repr

/-- `NpmQuickPickProvider.buildInstallCommand` (`extension.ts` 468–532).
`installType` is the raw string the quick-pick passes
(`''`, `'--save-dev'` or `'--save-peer'`). -/
def buildInstallCommand (packageManager : PM) (pkg : IPackage)
    (installType : String) (includeTypes : Bool) : String :=
  let packageSpec := pkg.name ++ "@" ++ pkg.version
  let typesPackage := "@types/" ++ pkg.name
  let mainCommand :=
    match packageManager with
    | PM.pnpm =>
        if installType = "--save-dev" then "pnpm add -D " ++ packageSpec
        else if installType = "--save-peer" then "pnpm add -P " ++ packageSpec
        else "pnpm add " ++ packageSpec
    | PM.yarn =>
        if installType = "--save-dev" then "yarn add -D " ++ packageSpec
        else if installType = "--save-peer" then "yarn add -P " ++ packageSpec
        else "yarn add " ++ packageSpec
    | PM.npm =>
        if installType = "--save-dev" then "npm install --save-dev " ++ packageSpec
        else if installType = "--save-peer" then "npm install --save-peer " ++ packageSpec
        else "npm install " ++ packageSpec
  if !includeTypes || installType = "--save-peer" then
    mainCommand
  else
    let typesCommand :=
      match packageManager with
      | PM.pnpm => "pnpm add -D " ++ typesPackage
      | PM.yarn => "yarn add -D " ++ typesPackage
      | PM.npm => "npm install --save-dev " ++ typesPackage
    mainCommand ++ " && " ++ typesCommand

/-- `NpmQuickPickProvider.buildRemoveCommand` (`extension.ts` 537–581). -/
def buildRemoveCommand (packageManager : PM) (packageName : String)
    (hasTypesPackage : Bool) : String :=
  let typesPackage := "@types/" ++ packageName
  let mainCommand :=
    match packageManager with
    | PM.pnpm => "pnpm remove " ++ packageName
    | PM.yarn => "yarn remove " ++ packageName
    | PM.npm => "npm uninstall " ++ packageName
  if !hasTypesPackage then
    mainCommand
  else
    let typesCommand :=
      match packageManager with
      | PM.pnpm => "pnpm remove " ++ typesPackage
      | PM.yarn => "yarn remove " ++ typesPackage
      | PM.npm => "npm uninstall " ++ typesPackage
    mainCommand ++ " && " ++ typesCommand

/-- The command-construction slice of `NpmQuickPickProvider.installPackage`
(`extension.ts` 294–343): the `@types` existence probe
(`checkTypesPackageExists`, a shell call modelled by the oracle
`typesAvailable`) runs only when `installType !== '--save-peer'`, and its
result feeds `buildInstallCommand`. -/
def installCommandFor (typesAvailable : PM → String → Bool) (packageManager : PM)
    (pkg : IPackage) (installType : String) : String :=
  let includeTypes :=
    if installType ≠ "--save-peer" then typesAvailable packageManager pkg.name
    else false
  buildInstallCommand packageManager pkg installType includeTypes

/-! ## DependencyTreeModel (`DepNodeProvider`, `node-dependencies.ts`) -/

/-- A tree node (`class Dependency extends vscode.TreeItem`).
`collapsible = true` models `TreeItemCollapsibleState.Collapsed`
(the node is expandable / installed locally), `false` models
`TreeItemCollapsibleState.None` (a leaf).  `workspaceDir` is the directory
holding the manifest that declared this dependency. -/
structure Dependency where
  collapsible : Bool
  label : String
  version : String
  type : DepType
  workspaceDir : Path
deriving DecidableEq, Repr

/-- The `toDep` closure inside `getDepsInPackageJson`
(`node-dependencies.ts` 939–962): the collapsible state is decided by
`pathExists(path.join(workspaceRoot, 'node_modules', moduleName))` — note
the provider's `workspaceRoot`, not the manifest's own directory. -/
def toDep (fs : Fs) (workspaceRoot workspaceDir : Path)
    (moduleName version : String) (t : DepType) : Dependency :=
  if pathExists fs (workspaceRoot ++ ["node_modules", moduleName]) then
    ⟨true, moduleName, version, t, workspaceDir⟩
  else
    ⟨false, moduleName, version, t, workspaceDir⟩

/-- `DepNodeProvider.getDepsInPackageJson` (`node-dependencies.ts`
934–991), assuming the provider's `workspaceRoot` is set (`getChildren`
bails out earlier otherwise).  Result `none` models the promise rejecting
because `JSON.parse` threw on an unreadable manifest; a missing manifest
gives `[]`.  Groups are emitted in the source's order
`peerDependencies ++ dependencies ++ devDependencies`, each in the
manifest's own key order (`Object.keys` insertion order; `Promise.all`
preserves order). -/
def getDepsInPackageJson (fs : Fs) (workspaceRoot packageJsonPath : Path) :
    Option (List Dependency) :=
  if pathExists fs packageJsonPath then
    match fs packageJsonPath with
    | some (some packageJson) =>
        let workspaceDir := packageJsonPath.dropLast
        some
          (((packageJson.peerDependencies.getD []).map fun e =>
              toDep fs workspaceRoot workspaceDir e.1 e.2 DepType.peer) ++
           ((packageJson.dependencies.getD []).map fun e =>
              toDep fs workspaceRoot workspaceDir e.1 e.2 DepType.dep) ++
           ((packageJson.devDependencies.getD []).map fun e =>
              toDep fs workspaceRoot workspaceDir e.1 e.2 DepType.dev))
    | _ => none
  else some []

/-- `DepNodeProvider.getChildren` for an expanded node
(`node-dependencies.ts` 915–918): the children manifest is read from
`path.join(this.workspaceRoot, 'node_modules', element.label,
'package.json')`.  (The rootless and no-element branches delegate to the
relevant-manifest policy and are outside the claims.) -/
def getChildren (fs : Fs) (workspaceRoot : Path) (element : Dependency) :
    Option (List Dependency) :=
  getDepsInPackageJson fs workspaceRoot
    (workspaceRoot ++ ["node_modules", element.label, "package.json"])

/-! ### Concrete fixtures for the tree-model claims -/

/-- A workspace root used by the C1 fixture. -/
def wsRoot1 : Path := ["ws"]

/-- A nested package directory `ws/packages/app` (C1 fixture). -/
def appDir1 : Path := ["ws", "packages", "app"]

/-- The nested package's manifest, declaring the dependency `a` (C1). -/
def appManifest1 : Manifest :=
  ⟨some "app", some "1.0.0", none, some [("a", "1.0.0")], none, none⟩

/-- C1 fixture: `a` is installed in the nested package's own
`node_modules` but not in the workspace root's. -/
def exFs1 : Fs := fun p =>
  if p = appDir1 ++ ["package.json"] then some (some appManifest1)
  else if p = appDir1 ++ ["node_modules", "a"] then some none
  else none

/-- The dependency `x`'s own installed manifest under the nested package
(C2 fixture), declaring a sub-dependency `y`. -/
def xOwnManifest2 : Manifest :=
  ⟨some "x", some "1.0.0", none, some [("y", "1.0.0")], none, none⟩

/-- C2 fixture: `x` (declared by `ws/packages/app`) is installed only
under the owner's `node_modules`; the workspace root has no copy. -/
def exFs2 : Fs := fun p =>
  if p = appDir1 ++ ["node_modules", "x", "package.json"] then some (some xOwnManifest2)
  else none

/-- The expanded node for `x`, owned by the nested package (C2). -/
def elem2 : Dependency := ⟨true, "x", "1.0.0", DepType.dep, appDir1⟩

/-- The manifest of the C7 round-trip example:
`{dependencies: {a}, devDependencies: {b}, peerDependencies: {c}}`. -/
def rootManifest7 : Manifest :=
  ⟨some "root", some "1.0.0", none, some [("a", "1.0.0")],
   some [("b", "2.0.0")], some [("c", "3.0.0")]⟩

/-- C7 fixture: only the root manifest exists. -/
def exFs7 : Fs := fun p =>
  if p = (["ws", "package.json"] : Path) then some (some rootManifest7)
  else none

/-! ## PackageLocator (`DepNodeProvider`, `node-dependencies.ts`) -/

/-- One name-checked probe of `findPackageJson`: if `p` exists and parses
and its `name` field equals `moduleName`, yield it (`node-dependencies.ts`
1042–1048 and 1051–1057). -/
def manifestIfNameMatches (fs : Fs) (p : Path) (moduleName : String) :
    Option Manifest :=
  if pathExists fs p then
    match readFileAsJson fs p with
    | some packageInfo =>
        if packageInfo.name = some moduleName then some packageInfo else none
    | none => none
  else none

/-- `DepNodeProvider.findPackageJson` (`node-dependencies.ts` 1037–1079):
check `startDir/package.json` on a name match, then one level up, then the
workspace root's `node_modules/<moduleName>/package.json` unconditionally
if present (returning whatever `readFileAsJson` yields, even `none`), and
finally the registry (`NpmApiService.getPackageInfo`, modelled by the
oracle `reg`; `none` models a lookup failure degraded to `null`). -/
def findPackageJson (fs : Fs) (workspaceRoot : Option Path)
    (reg : String → Option Manifest) (moduleName : String) (startDir : Path) :
    Option Manifest :=
  match manifestIfNameMatches fs (startDir ++ ["package.json"]) moduleName with
  | some m => some m
  | none =>
    match manifestIfNameMatches fs (startDir.dropLast ++ ["package.json"]) moduleName with
    | some m => some m
    | none =>
      match workspaceRoot with
      | some w =>
          let rootNodeModulesPath := w ++ ["node_modules", moduleName, "package.json"]
          if pathExists fs rootNodeModulesPath then
            readFileAsJson fs rootNodeModulesPath
          else
            reg moduleName
      | none => reg moduleName

/-- `DepNodeProvider.resolvePackageDir` (`node-dependencies.ts`
1081–1105): names containing `'@types/'` are rejected up front (the probe
would spuriously fail for them); otherwise `require.resolve` — modelled by
the oracle `resolver`, `none` meaning it threw — yields an entry-point
path whose containing directory is the candidate root
(`fs.realpathSync` is the identity here: symlinks are not modelled). -/
def resolvePackageDir (resolver : String → Path → Option Path)
    (moduleName : String) (dir : Path) : Option Path :=
  if strIncludes moduleName "@types/" then none
  else
    match resolver moduleName dir with
    | some entry => some entry.dropLast
    | none => none

/-- `DepNodeProvider.getPackageJsonFromPath` (`node-dependencies.ts`
1015–1032): manifest search from the resolved candidate root when the
probe succeeds, else from the starting directory itself. -/
def getPackageJsonFromPath (resolver : String → Path → Option Path) (fs : Fs)
    (workspaceRoot : Option Path) (reg : String → Option Manifest)
    (moduleName : String) (dir : Path) : Option Manifest :=
  match resolvePackageDir resolver moduleName dir with
  | some pkgDir => findPackageJson fs workspaceRoot reg moduleName pkgDir
  | none => findPackageJson fs workspaceRoot reg moduleName dir

/-! ## PackageManagerDetector -/

/-- The lockfile / executable fallback chain shared by both detector
copies: `pnpm-lock.yaml` → `yarn.lock` → `package-lock.json`, then the
`which pnpm` / `which yarn` probes (absent in the view copy), then npm. -/
def lockfileFallback (fs : Fs) (packageDir : Path) (pnpmOnPath yarnOnPath : Bool) : PM :=
  if pathExists fs (packageDir ++ ["pnpm-lock.yaml"]) then PM.pnpm
  else if pathExists fs (packageDir ++ ["yarn.lock"]) then PM.yarn
  else if pathExists fs (packageDir ++ ["package-lock.json"]) then PM.npm
  else if pnpmOnPath then PM.pnpm
  else if yarnOnPath then PM.yarn
  else PM.npm

/-- `NpmQuickPickProvider.detectPackageManager` (`extension.ts` 419–463).
A manifest that exists but fails `JSON.parse` hits the surrounding
`catch`, which returns `npm` immediately — the lockfile and executable
steps are never reached in that case. -/
def detectPackageManager (fs : Fs) (packageDir : Path)
    (pnpmOnPath yarnOnPath : Bool) : PM :=
  match fs (packageDir ++ ["package.json"]) with
  | some none => PM.npm
  | some (some packageJson) =>
      match packageJson.packageManager with
      | some field =>
          let packageManager := splitAtFirstAt field
          if packageManager = "npm" then PM.npm
          else if packageManager = "pnpm" then PM.pnpm
          else if packageManager = "yarn" then PM.yarn
          else lockfileFallback fs packageDir pnpmOnPath yarnOnPath
      | none => lockfileFallback fs packageDir pnpmOnPath yarnOnPath
  | none => lockfileFallback fs packageDir pnpmOnPath yarnOnPath

/-- `DepNodeProvider.detectPackageManager` (`node-dependencies.ts`
1127–1159): same shape but with no executable probe.  A manifest that
exists but does not parse makes `readFileAsJson` return `null`, the
`packageJson.packageManager` access throws, and the `catch` returns
`npm`. -/
def detectPackageManagerView (fs : Fs) (workspaceRoot : Path) : PM :=
  match fs (workspaceRoot ++ ["package.json"]) with
  | some none => PM.npm
  | some (some packageJson) =>
      match packageJson.packageManager with
      | some field =>
          let packageManager := splitAtFirstAt field
          if packageManager = "npm" then PM.npm
          else if packageManager = "pnpm" then PM.pnpm
          else if packageManager = "yarn" then PM.yarn
          else lockfileFallback fs workspaceRoot false false
      | none => lockfileFallback fs workspaceRoot false false
  | none => lockfileFallback fs workspaceRoot false false

/-- "The directory's `package.json`, if any, lacks a `packageManager`
field": either there is no manifest file, or it parses to a manifest
without the field. -/
def noPackageManagerField (fs : Fs) (dir : Path) : Prop :=
  fs (dir ++ ["package.json"]) = none ∨
    ∃ pj, fs (dir ++ ["package.json"]) = some (some pj) ∧ pj.packageManager = none

/-! ## Remove flow (`NpmQuickPickProvider.removePackage`, `extension.ts` 46–118) -/

/-- The observable outcome of `removePackage`: each `err*` constructor is
an error notification with no shell command constructed or executed;
`run cmd` is the command handed to `executeWithTask`. -/
inductive RemoveOutcome where
  | errNoManifest
  | errParse
  | errNotDeclared
  | run (command : String)
deriving DecidableEq, Repr

/-- JavaScript truthiness of `group?.[key]`: the group exists, the key is
present, and its version string is non-empty (`''` is falsy). -/
def truthyDep (group : Option (List (String × String))) (k : String) : Bool :=
  match group with
  | none => false
  | some l =>
      match assocFind l k with
      | none => false
      | some v => v ≠ ""

/-- `NpmQuickPickProvider.removePackage`: detect the manager, require
`workspaceRoot/package.json` to exist (else an error message and return),
require the package to be declared — truthily — in one of the three
dependency groups (else an error message and return), then build the
remove command, with the `@types` step decided by
`devDependencies || peerDependencies || dependencies` truthiness of
`@types/<packageName>`.  An unparseable manifest throws into the outer
`catch` (`errParse`): an error message, no command. -/
def removePackage (fs : Fs) (pnpmOnPath yarnOnPath : Bool)
    (packageName : String) (workspaceRoot : Path) : RemoveOutcome :=
  let packageManager := detectPackageManager fs workspaceRoot pnpmOnPath yarnOnPath
  let typesPackage := "@types/" ++ packageName
  match fs (workspaceRoot ++ ["package.json"]) with
  | none => RemoveOutcome.errNoManifest
  | some none => RemoveOutcome.errParse
  | some (some pkg) =>
      if !truthyDep pkg.dependencies packageName &&
         !truthyDep pkg.devDependencies packageName &&
         !truthyDep pkg.peerDependencies packageName then
        RemoveOutcome.errNotDeclared
      else
        let hasTypesPackage :=
          truthyDep pkg.devDependencies typesPackage ||
          truthyDep pkg.peerDependencies typesPackage ||
          truthyDep pkg.dependencies typesPackage
        RemoveOutcome.run (buildRemoveCommand packageManager packageName hasTypesPackage)

/-! ## RegistryClient cache (`NpmApiService`, `npmApiService.ts`) -/

/-- One cache slot: `{ data, timestamp }`. -/
structure CacheEntry where
  data : Manifest
  timestamp : Nat
deriving DecidableEq, Repr

/-- `NpmApiService.cache`, a `Map<string, CacheEntry>` as an ordered
association list. -/
abbrev CacheMap := List (String × CacheEntry)

/-- `NpmApiService.CACHE_DURATION = 60 * 60 * 1000` (one hour, ms). -/
def cacheDuration : Nat := 60 * 60 * 1000

/-- The cache key: `name@version` when a version is given, else `name`. -/
def cacheKeyOf (packageName : String) (version : Option String) : String :=
  match version with
  | some v => packageName ++ "@" ++ v
  | none => packageName

/-- The observable outcome of one `getPackageInfo` call: the returned
metadata, whether a network fetch happened, and the cache afterwards. -/
structure GetPackageInfoResult where
  result : Option Manifest
  fetched : Bool
  cache : CacheMap
deriving Repr

/-- `NpmApiService.getPackageInfo` (`npmApiService.ts` 116–158): serve
from the cache when the entry's age is strictly below one hour; otherwise
fetch (`reg`, `none` modelling a 404 or error degraded to `null`), and on
success overwrite the entry with the new data and the current time. -/
def getPackageInfo (cache : CacheMap) (reg : String → Option String → Option Manifest)
    (now : Nat) (packageName : String) (version : Option String) :
    GetPackageInfoResult :=
  let cacheKey := cacheKeyOf packageName version
  let fetchNow : GetPackageInfoResult :=
    match reg packageName version with
    | some data => ⟨some data, true, setAssoc cache cacheKey ⟨data, now⟩⟩
    | none => ⟨none, true, cache⟩
  match assocFind cache cacheKey with
  | some cached =>
      if now - cached.timestamp < cacheDuration then ⟨some cached.data, false, cache⟩
      else fetchNow
  | none => fetchNow

/-! ### Concrete fixtures for the locator, detector, remove and cache claims -/

/-- An entirely empty filesystem. -/
def exFsEmpty : Fs := fun _ => none

/-- C3 fixture workspace root. -/
def ws3 : Path := ["ws"]

/-- C3 fixture starting directory. -/
def start3 : Path := ["ws", "src"]

/-- Registry metadata for `a` (C3 fixture). -/
def regMeta3 : Manifest := ⟨some "a", some "9.9.9", none, none, none, none⟩

/-- C3 fixture: the workspace-root installed manifest for `a` exists but
cannot be parsed; nothing else exists. -/
def exFs3 : Fs := fun p =>
  if p = ws3 ++ ["node_modules", "a", "package.json"] then some none
  else none

/-- C3 fixture registry: knows `a`. -/
def exReg3 : String → Option Manifest := fun n =>
  if n = "a" then some regMeta3 else none

/-- C4 fixture project directory. -/
def dir4 : Path := ["proj"]

/-- C4 fixture: a `package.json` that exists but fails to parse, next to a
`pnpm-lock.yaml`. -/
def exFs4 : Fs := fun p =>
  if p = dir4 ++ ["package.json"] then some none
  else if p = dir4 ++ ["pnpm-lock.yaml"] then some none
  else none

/-- C4 witness fixture: no manifest, both `yarn.lock` and
`package-lock.json` present. -/
def exFs4w : Fs := fun p =>
  if p = dir4 ++ ["yarn.lock"] then some none
  else if p = dir4 ++ ["package-lock.json"] then some none
  else none

/-- C9 fixture: the stale cached metadata. -/
def m9old : Manifest := ⟨some "lodash", some "1.0.0", none, none, none, none⟩

/-- C9 fixture: the fresh registry metadata. -/
def m9new : Manifest := ⟨some "lodash", some "2.0.0", none, none, none, none⟩

/-- C9 fixture cache: `lodash` cached at time 0. -/
def cache9 : CacheMap := [("lodash", ⟨m9old, 0⟩)]

/-- C9 fixture registry: a version-less lookup of `lodash` now yields the
fresh metadata. -/
def reg9 : String → Option String → Option Manifest := fun n v =>
  if n = "lodash" ∧ v = none then some m9new else none

/-- C10 fixture project directory. -/
def dir10 : Path := ["proj10"]

/-- C10 fixture manifest: `foo` is a normal dependency, and `@types/foo`
is declared in `devDependencies` with the (legal) empty version range. -/
def m10 : Manifest :=
  ⟨some "proj10", some "1.0.0", none, some [("foo", "1.0.0")],
   some [("@types/foo", "")], none⟩

/-- C10 fixture: only the project manifest exists. -/
def exFs10 : Fs := fun p =>
  if p = dir10 ++ ["package.json"] then some (some m10) else none

end FePilot

namespace FePilot

/-! ## Claims C5 and C6 -/

/-- C5: for every package manager and package, a peer install
(`installType = '--save-peer'`) produces only the single peer-install
command — no `@types` companion step is appended even when
`includeTypes` is requested — and the install flow's types-existence
probe is skipped entirely for peer installs (the built command does not
depend on the probe oracle at all). -/
theorem peer_install_has_no_types_step
    (typesAvailable typesAvailable' : PM → String → Bool)
    (packageManager : PM) (pkg : IPackage) (includeTypes : Bool) :
    buildInstallCommand packageManager pkg "--save-peer" includeTypes =
      (match packageManager with
       | PM.npm => "npm install --save-peer " ++ pkg.name ++ "@" ++ pkg.version
       | PM.pnpm => "pnpm add -P " ++ pkg.name ++ "@" ++ pkg.version
       | PM.yarn => "yarn add -P " ++ pkg.name ++ "@" ++ pkg.version) ∧
    installCommandFor typesAvailable packageManager pkg "--save-peer" =
      buildInstallCommand packageManager pkg "--save-peer" false ∧
    installCommandFor typesAvailable packageManager pkg "--save-peer" =
      installCommandFor typesAvailable' packageManager pkg "--save-peer" := by
  refine ⟨?_, ?_, ?_⟩ <;>
    cases packageManager <;>
      simp [buildInstallCommand, installCommandFor, String.append_assoc]

/-- C6: `buildInstall(npm, {name: "lodash", version: "4.17.21"}, dev, true)`
is exactly
`"npm install --save-dev lodash@4.17.21 && npm install --save-dev @types/lodash"`:
the spec is `name@version`, the types companion is installed as a dev
dependency, and the two commands are joined by `&&`. -/
theorem npm_dev_install_with_types_example :
    buildInstallCommand PM.npm ⟨"lodash", "4.17.21"⟩ "--save-dev" true =
      "npm install --save-dev lodash@4.17.21 && npm install --save-dev @types/lodash" := by
  decide

/-! ## Tree-model lemmas -/

theorem toDep_collapsible (fs : Fs) (w wd : Path) (n v : String) (t : DepType) :
    (toDep fs w wd n v t).collapsible = pathExists fs (w ++ ["node_modules", n]) := by
  unfold toDep
  by_cases h : pathExists fs (w ++ ["node_modules", n]) <;> simp [h]

theorem toDep_label (fs : Fs) (w wd : Path) (n v : String) (t : DepType) :
    (toDep fs w wd n v t).label = n := by
  unfold toDep
  by_cases h : pathExists fs (w ++ ["node_modules", n]) <;> simp [h]

theorem toDep_version (fs : Fs) (w wd : Path) (n v : String) (t : DepType) :
    (toDep fs w wd n v t).version = v := by
  unfold toDep
  by_cases h : pathExists fs (w ++ ["node_modules", n]) <;> simp [h]

theorem toDep_type (fs : Fs) (w wd : Path) (n v : String) (t : DepType) :
    (toDep fs w wd n v t).type = t := by
  unfold toDep
  by_cases h : pathExists fs (w ++ ["node_modules", n]) <;> simp [h]

theorem getDepsInPackageJson_eq_of_manifest (fs : Fs) (w p : Path) (pj : Manifest)
    (h : fs p = some (some pj)) :
    getDepsInPackageJson fs w p =
      some
        (((pj.peerDependencies.getD []).map fun e =>
            toDep fs w p.dropLast e.1 e.2 DepType.peer) ++
         ((pj.dependencies.getD []).map fun e =>
            toDep fs w p.dropLast e.1 e.2 DepType.dep) ++
         ((pj.devDependencies.getD []).map fun e =>
            toDep fs w p.dropLast e.1 e.2 DepType.dev)) := by
  have hex : pathExists fs p = true := by simp [pathExists, h]
  unfold getDepsInPackageJson
  simp [hex, h]

/-! ## Claims C1, C2 and C7 -/

/-- C1 counterexample: the manifest at `ws/packages/app/package.json`
declares `a`, and `ws/packages/app/node_modules/a` exists — yet the
emitted node is a leaf (`collapsible = false`), because the code tests
`<workspaceRoot>/node_modules/a` (line 945) instead of the owner's
directory. -/
theorem installed_flag_ignores_ownerDir_cex :
    getDepsInPackageJson exFs1 wsRoot1 (appDir1 ++ ["package.json"]) =
      some [⟨false, "a", "1.0.0", DepType.dep, appDir1⟩] ∧
    pathExists exFs1 (appDir1 ++ ["node_modules", "a"]) = true := by
  decide

/-- C1 amended: a node's `isInstalledLocally` flag (its expandable
collapsible state) is true iff `<workspaceRoot>/node_modules/<name>`
exists per the provider's path-existence check, where `workspaceRoot` is
the tree provider's workspace root — regardless of which directory holds
the declaring manifest. -/
theorem installed_flag_iff_workspaceRoot_nodeModules (fs : Fs)
    (workspaceRoot packageJsonPath : Path) (l : List Dependency)
    (h : getDepsInPackageJson fs workspaceRoot packageJsonPath = some l) :
    ∀ d ∈ l, d.collapsible = pathExists fs (workspaceRoot ++ ["node_modules", d.label]) := by
  intro d hd
  unfold getDepsInPackageJson at h
  by_cases hex : pathExists fs packageJsonPath
  · rw [if_pos (by simp [hex])] at h
    match hfs : fs packageJsonPath with
    | some (some pj) =>
        rw [hfs] at h
        have hl := Option.some.inj h
        subst hl
        simp only [List.mem_append, List.mem_map] at hd
        rcases hd with (⟨e, _, he⟩ | ⟨e, _, he⟩) | ⟨e, _, he⟩ <;>
          (subst he; rw [toDep_collapsible, toDep_label])
    | some none =>
        rw [hfs] at h
        cases h
    | none =>
        rw [pathExists, hfs] at hex
        cases hex
  · rw [if_neg (by simp [hex])] at h
    have hl := Option.some.inj h
    subst hl
    cases hd

/-- Witness for the amended C1 theorem on the C1 fixture. -/
theorem installed_flag_iff_workspaceRoot_nodeModules_witness :
    (Dependency.mk false "a" "1.0.0" DepType.dep appDir1).collapsible =
      pathExists exFs1 (wsRoot1 ++ ["node_modules", "a"]) :=
  installed_flag_iff_workspaceRoot_nodeModules exFs1 wsRoot1
    (appDir1 ++ ["package.json"]) [⟨false, "a", "1.0.0", DepType.dep, appDir1⟩]
    (by decide) _ (by decide)

/-- C2 counterexample: `x` was declared by `ws/packages/app` (its
`workspaceDir`), its installed copy under the owner
(`ws/packages/app/node_modules/x/package.json`) declares `y` — but
expanding the node yields `[]`, because `getChildren` reads
`<workspaceRoot>/node_modules/x/package.json` (line 917), not the owner's
installation root. -/
theorem children_not_from_ownerDir_cex :
    getChildren exFs2 wsRoot1 elem2 = some [] ∧
    getDepsInPackageJson exFs2 wsRoot1
        (elem2.workspaceDir ++ ["node_modules", elem2.label, "package.json"]) =
      some [⟨false, "y", "1.0.0", DepType.dep, appDir1 ++ ["node_modules", "x"]⟩] := by
  decide

/-- C2 amended: for every expanded node, `getChildren` reads
`<workspaceRoot>/node_modules/<label>/package.json` — the provider's
workspace root — and its result is entirely independent of the node's
owning directory (`workspaceDir`). -/
theorem children_read_from_workspaceRoot (fs : Fs) (workspaceRoot : Path)
    (e : Dependency) (d : Path) :
    getChildren fs workspaceRoot e =
      getDepsInPackageJson fs workspaceRoot
        (workspaceRoot ++ ["node_modules", e.label, "package.json"]) ∧
    getChildren fs workspaceRoot ⟨e.collapsible, e.label, e.version, e.type, d⟩ =
      getChildren fs workspaceRoot e := by
  exact ⟨rfl, rfl⟩

/-- C7: the tree model emits root nodes in the group order
peer, then direct, then dev, and within each group in the manifest's own
key order: the emitted `(label, version, kind)` sequence is exactly the
concatenation of the three groups in that order. -/
theorem roots_in_group_order (fs : Fs) (workspaceRoot packageJsonPath : Path)
    (pj : Manifest) (h : fs packageJsonPath = some (some pj)) :
    (getDepsInPackageJson fs workspaceRoot packageJsonPath).map
        (List.map fun d => (d.label, d.version, d.type)) =
      some
        (((pj.peerDependencies.getD []).map fun e => (e.1, e.2, DepType.peer)) ++
         ((pj.dependencies.getD []).map fun e => (e.1, e.2, DepType.dep)) ++
         ((pj.devDependencies.getD []).map fun e => (e.1, e.2, DepType.dev))) := by
  rw [getDepsInPackageJson_eq_of_manifest fs workspaceRoot packageJsonPath pj h]
  simp [List.map_map, Function.comp_def, toDep_label, toDep_version, toDep_type]

/-- Witness for C7: the round-trip example — a manifest with
`dependencies {a}`, `devDependencies {b}`, `peerDependencies {c}` yields
roots in the order `[c (peer), a (dep), b (dev)]`. -/
theorem roots_in_group_order_witness :
    (getDepsInPackageJson exFs7 ["ws"] ["ws", "package.json"]).map
        (List.map fun d => (d.label, d.version, d.type)) =
      some [("c", "3.0.0", DepType.peer), ("a", "1.0.0", DepType.dep),
            ("b", "2.0.0", DepType.dev)] :=
  (roots_in_group_order exFs7 ["ws"] ["ws", "package.json"] rootManifest7
    (by decide)).trans (by decide)

/-! ## String helper lemmas -/

theorem listFront_append (xs ys : List Char) : listFront xs (xs ++ ys) = true := by
  induction xs with
  | nil => rfl
  | cons a as ih => simp [listFront, ih]

theorem listHasSub_of_listFront (pat s : List Char) (h : listFront pat s = true) :
    listHasSub pat s = true := by
  cases s with
  | nil => simpa [listHasSub] using h
  | cons c rest => simp [listHasSub, h]

theorem strData_append (s t : String) : (s ++ t).data = s.data ++ t.data := by
  cases s
  cases t
  rfl

theorem strIncludes_of_append (p rest : String) : strIncludes (p ++ rest) p = true := by
  unfold strIncludes
  rw [strData_append]
  exact listHasSub_of_listFront _ _ (listFront_append _ _)

/-! ## Claim C8 -/

/-- C8: for every dependency name beginning with `@types/`, the
module-resolution probe yields no candidate (regardless of what the
resolver would say), so the locate flow proceeds directly to the manifest
search from the starting directory — its result does not depend on the
resolver at all. -/
theorem types_names_skip_resolution_probe
    (resolver resolver' : String → Path → Option Path) (fs : Fs)
    (workspaceRoot : Option Path) (reg : String → Option Manifest)
    (rest : String) (dir : Path) :
    resolvePackageDir resolver ("@types/" ++ rest) dir = none ∧
    getPackageJsonFromPath resolver fs workspaceRoot reg ("@types/" ++ rest) dir =
      findPackageJson fs workspaceRoot reg ("@types/" ++ rest) dir ∧
    getPackageJsonFromPath resolver fs workspaceRoot reg ("@types/" ++ rest) dir =
      getPackageJsonFromPath resolver' fs workspaceRoot reg ("@types/" ++ rest) dir := by
  have hinc : strIncludes ("@types/" ++ rest) "@types/" = true :=
    strIncludes_of_append _ _
  have hres : ∀ r : String → Path → Option Path,
      resolvePackageDir r ("@types/" ++ rest) dir = none := by
    intro r
    unfold resolvePackageDir
    simp [hinc]
  refine ⟨hres resolver, ?_, ?_⟩ <;> simp [getPackageJsonFromPath, hres]

/-! ## Claim C3 -/

/-- C3 counterexample: the workspace-root installed manifest for `a`
exists but cannot be parsed, so `findPackageJson` returns `null` even
though the registry knows `a` — the registry fallback is skipped, so the
lookup does not "return null only when all four steps fail". -/
theorem locator_null_without_registry_cex :
    findPackageJson exFs3 (some ws3) exReg3 "a" start3 = none ∧
    exReg3 "a" = some regMeta3 := by
  decide

/-- C3 amended: the lookup checks `startDir/package.json` accepting only
on a name match, then one level up with the same requirement; then, if
`<workspaceRoot>/node_modules/<name>/package.json` exists, it is accepted
unconditionally — the result is whatever it parses to (possibly null),
independent of the registry; the registry is consulted only when that
file is absent, and the lookup returns null when the consulted steps all
fail (it never throws: it is a total function). -/
theorem locator_cascade (fs : Fs) (w : Path) (reg : String → Option Manifest)
    (moduleName : String) (startDir : Path) :
    (∀ m, manifestIfNameMatches fs (startDir ++ ["package.json"]) moduleName = some m →
        findPackageJson fs (some w) reg moduleName startDir = some m) ∧
    (∀ m, manifestIfNameMatches fs (startDir ++ ["package.json"]) moduleName = none →
        manifestIfNameMatches fs (startDir.dropLast ++ ["package.json"]) moduleName = some m →
        findPackageJson fs (some w) reg moduleName startDir = some m) ∧
    (manifestIfNameMatches fs (startDir ++ ["package.json"]) moduleName = none →
        manifestIfNameMatches fs (startDir.dropLast ++ ["package.json"]) moduleName = none →
        pathExists fs (w ++ ["node_modules", moduleName, "package.json"]) = true →
        ∀ reg' : String → Option Manifest,
          findPackageJson fs (some w) reg' moduleName startDir =
            readFileAsJson fs (w ++ ["node_modules", moduleName, "package.json"])) ∧
    (manifestIfNameMatches fs (startDir ++ ["package.json"]) moduleName = none →
        manifestIfNameMatches fs (startDir.dropLast ++ ["package.json"]) moduleName = none →
        pathExists fs (w ++ ["node_modules", moduleName, "package.json"]) = false →
        findPackageJson fs (some w) reg moduleName startDir = reg moduleName) := by
  refine ⟨?_, ?_, ?_, ?_⟩
  · intro m h1
    simp [findPackageJson, h1]
  · intro m h1 h2
    simp [findPackageJson, h1, h2]
  · intro h1 h2 h3 reg'
    simp [findPackageJson, h1, h2, h3]
  · intro h1 h2 h3
    simp [findPackageJson, h1, h2, h3]

/-- Witness for the amended C3 theorem: on an empty filesystem the lookup
degrades to the registry result. -/
theorem locator_cascade_witness :
    findPackageJson exFsEmpty (some ws3) exReg3 "a" start3 = exReg3 "a" :=
  (locator_cascade exFsEmpty ws3 exReg3 "a" start3).2.2.2 (by decide) (by decide)
    (by decide)

/-! ## Claim C4 -/

/-- C4 counterexample: the project has a `pnpm-lock.yaml` and a
`package.json` that exists but does not parse — a directory with no
`packageManager` field — yet both detector copies return npm (the parse
error lands in the `catch`, which returns npm without ever reaching the
lockfile step), where the claim requires the lockfile priority to yield
pnpm. -/
theorem detect_unparseable_manifest_cex :
    detectPackageManager exFs4 dir4 false false = PM.npm ∧
    detectPackageManagerView exFs4 dir4 = PM.npm ∧
    exFs4 (dir4 ++ ["package.json"]) = some none ∧
    pathExists exFs4 (dir4 ++ ["pnpm-lock.yaml"]) = true := by
  decide

/-- Both detector copies reduce to the lockfile/executable fallback chain
when the manifest, if present, parses and lacks a `packageManager`
field. -/
theorem detect_noField (fs : Fs) (dir : Path) (pnpmOnPath yarnOnPath : Bool)
    (h : noPackageManagerField fs dir) :
    detectPackageManager fs dir pnpmOnPath yarnOnPath =
      lockfileFallback fs dir pnpmOnPath yarnOnPath ∧
    detectPackageManagerView fs dir = lockfileFallback fs dir false false := by
  rcases h with h | ⟨pj, h, hf⟩
  · constructor <;> simp [detectPackageManager, detectPackageManagerView, h]
  · constructor <;> simp [detectPackageManager, detectPackageManagerView, h, hf]

/-- C4 amended: a parseable manifest whose `packageManager` value up to
the first `@` is `pnpm` forces pnpm regardless of lockfiles; when the
manifest is absent or parseable without the field, lockfiles decide in
the priority `pnpm-lock.yaml` > `yarn.lock` > `package-lock.json` (so
`yarn.lock` yields yarn even when `package-lock.json` exists), with npm
as the final default when no signal (lockfile or executable) remains —
but a manifest that exists and fails to parse yields npm immediately,
bypassing the lockfile step. -/
theorem detect_priority (fs : Fs) (dir : Path) (pnpmOnPath yarnOnPath : Bool) :
    (∀ pj field, fs (dir ++ ["package.json"]) = some (some pj) →
        pj.packageManager = some field → splitAtFirstAt field = "pnpm" →
        detectPackageManager fs dir pnpmOnPath yarnOnPath = PM.pnpm ∧
        detectPackageManagerView fs dir = PM.pnpm) ∧
    (fs (dir ++ ["package.json"]) = some none →
        detectPackageManager fs dir pnpmOnPath yarnOnPath = PM.npm ∧
        detectPackageManagerView fs dir = PM.npm) ∧
    (noPackageManagerField fs dir →
        pathExists fs (dir ++ ["pnpm-lock.yaml"]) = true →
        detectPackageManager fs dir pnpmOnPath yarnOnPath = PM.pnpm ∧
        detectPackageManagerView fs dir = PM.pnpm) ∧
    (noPackageManagerField fs dir →
        pathExists fs (dir ++ ["pnpm-lock.yaml"]) = false →
        pathExists fs (dir ++ ["yarn.lock"]) = true →
        detectPackageManager fs dir pnpmOnPath yarnOnPath = PM.yarn ∧
        detectPackageManagerView fs dir = PM.yarn) ∧
    (noPackageManagerField fs dir →
        pathExists fs (dir ++ ["pnpm-lock.yaml"]) = false →
        pathExists fs (dir ++ ["yarn.lock"]) = false →
        pathExists fs (dir ++ ["package-lock.json"]) = true →
        detectPackageManager fs dir pnpmOnPath yarnOnPath = PM.npm ∧
        detectPackageManagerView fs dir = PM.npm) ∧
    (noPackageManagerField fs dir →
        pathExists fs (dir ++ ["pnpm-lock.yaml"]) = false →
        pathExists fs (dir ++ ["yarn.lock"]) = false →
        pathExists fs (dir ++ ["package-lock.json"]) = false →
        detectPackageManager fs dir false false = PM.npm ∧
        detectPackageManagerView fs dir = PM.npm) := by
  refine ⟨?_, ?_, ?_, ?_, ?_, ?_⟩
  · intro pj field hfs hfield hsplit
    constructor <;>
      simp [detectPackageManager, detectPackageManagerView, hfs, hfield, hsplit]
  · intro hfs
    constructor <;> simp [detectPackageManager, detectPackageManagerView, hfs]
  · intro h h1
    rcases detect_noField fs dir pnpmOnPath yarnOnPath h with ⟨ha, hb⟩
    rw [ha, hb]
    constructor <;> simp [lockfileFallback, h1]
  · intro h h1 h2
    rcases detect_noField fs dir pnpmOnPath yarnOnPath h with ⟨ha, hb⟩
    rw [ha, hb]
    constructor <;> simp [lockfileFallback, h1, h2]
  · intro h h1 h2 h3
    rcases detect_noField fs dir pnpmOnPath yarnOnPath h with ⟨ha, hb⟩
    rw [ha, hb]
    constructor <;> simp [lockfileFallback, h1, h2, h3]
  · intro h h1 h2 h3
    rcases detect_noField fs dir false false h with ⟨ha, hb⟩
    rw [ha, hb]
    constructor <;> simp [lockfileFallback, h1, h2, h3]

/-- Witness for the amended C4 theorem: no `packageManager` field, both
`yarn.lock` and `package-lock.json` present — yarn wins. -/
theorem detect_priority_witness :
    detectPackageManager exFs4w dir4 true true = PM.yarn ∧
    detectPackageManagerView exFs4w dir4 = PM.yarn :=
  (detect_priority exFs4w dir4 true true).2.2.2.1 (Or.inl (by decide)) (by decide)
    (by decide)

/-! ## Claim C9 -/

theorem assocFind_setAssoc {β : Type} (l : List (String × β)) (k : String) (v : β) :
    assocFind (setAssoc l k v) k = some v := by
  induction l with
  | nil => simp [setAssoc, assocFind]
  | cons hd t ih =>
      obtain ⟨a, b⟩ := hd
      by_cases hak : a = k
      · simp [setAssoc, assocFind, hak]
      · simp [setAssoc, assocFind, hak, ih]

/-- C9: a registry metadata lookup is served from the cache (no network
fetch) iff the entry under the key (`name` or `name@version`) is strictly
younger than one hour; a fresh hit returns the cached data and leaves the
cache untouched, while an expired entry triggers a fetch whose successful
result overwrites the entry with the new data and the current
timestamp. -/
theorem registry_cache_ttl (cache : CacheMap)
    (reg : String → Option String → Option Manifest) (now : Nat)
    (packageName : String) (version : Option String) :
    ((getPackageInfo cache reg now packageName version).fetched = false ↔
      ∃ e, assocFind cache (cacheKeyOf packageName version) = some e ∧
        now - e.timestamp < cacheDuration) ∧
    (∀ e, assocFind cache (cacheKeyOf packageName version) = some e →
        now - e.timestamp < cacheDuration →
        getPackageInfo cache reg now packageName version = ⟨some e.data, false, cache⟩) ∧
    (∀ e d', assocFind cache (cacheKeyOf packageName version) = some e →
        cacheDuration ≤ now - e.timestamp →
        reg packageName version = some d' →
        getPackageInfo cache reg now packageName version =
          ⟨some d', true, setAssoc cache (cacheKeyOf packageName version) ⟨d', now⟩⟩ ∧
        assocFind (getPackageInfo cache reg now packageName version).cache
          (cacheKeyOf packageName version) = some ⟨d', now⟩) := by
  refine ⟨?_, ?_, ?_⟩
  · rcases hc : assocFind cache (cacheKeyOf packageName version) with _ | e
    · rcases hr : reg packageName version with _ | d <;>
        simp [getPackageInfo, hc, hr]
    · by_cases hlt : now - e.timestamp < cacheDuration
      · simp [getPackageInfo, hc, hlt]
      · rcases hr : reg packageName version with _ | d <;>
          simp [getPackageInfo, hc, hlt, hr]
  · intro e he hlt
    simp [getPackageInfo, he, hlt]
  · intro e d' he hge hr
    have hlt : ¬ now - e.timestamp < cacheDuration := by omega
    constructor
    · simp [getPackageInfo, he, hlt, hr]
    · simp [getPackageInfo, he, hlt, hr, assocFind_setAssoc]

/-- Witness for C9: `lodash` was cached at time 0; a lookup at 61 minutes
(3 660 000 ms) fetches fresh data and overwrites the entry. -/
theorem registry_cache_ttl_witness :
    (getPackageInfo cache9 reg9 3660000 "lodash" none).fetched = true ∧
    (getPackageInfo cache9 reg9 3660000 "lodash" none).result = some m9new ∧
    assocFind (getPackageInfo cache9 reg9 3660000 "lodash" none).cache "lodash" =
      some ⟨m9new, 3660000⟩ := by
  have h := (registry_cache_ttl cache9 reg9 3660000 "lodash" none).2.2 ⟨m9old, 0⟩ m9new
    (by decide) (by decide) (by decide)
  refine ⟨?_, ?_, h.2⟩ <;> rw [h.1]

/-! ## Claim C10 -/

/-- C10 counterexample: `@types/foo` *is* declared (in `devDependencies`,
with the legal empty version range), yet the built remove command has no
types step, because the code tests JavaScript truthiness of the version
string rather than key presence. -/
theorem remove_types_truthiness_cex :
    removePackage exFs10 false false "foo" dir10 =
      RemoveOutcome.run "npm uninstall foo" ∧
    assocFind (m10.devDependencies.getD []) "@types/foo" = some "" := by
  decide

/-- C10 amended: with no `package.json` in the directory, or with the
package not declared with a truthy (non-empty) version in any of the
three dependency groups, `removePackage` reports an error and constructs
no shell command (likewise when the manifest cannot be parsed); otherwise
it runs the remove command, whose `@types/<name>` step is included
exactly when the types package is declared with a truthy version in one
of the three groups. -/
theorem remove_guards_and_types (fs : Fs) (pnpmOnPath yarnOnPath : Bool)
    (packageName : String) (workspaceRoot : Path) :
    (fs (workspaceRoot ++ ["package.json"]) = none →
        removePackage fs pnpmOnPath yarnOnPath packageName workspaceRoot =
          RemoveOutcome.errNoManifest) ∧
    (fs (workspaceRoot ++ ["package.json"]) = some none →
        removePackage fs pnpmOnPath yarnOnPath packageName workspaceRoot =
          RemoveOutcome.errParse) ∧
    (∀ pj, fs (workspaceRoot ++ ["package.json"]) = some (some pj) →
        truthyDep pj.dependencies packageName = false →
        truthyDep pj.devDependencies packageName = false →
        truthyDep pj.peerDependencies packageName = false →
        removePackage fs pnpmOnPath yarnOnPath packageName workspaceRoot =
          RemoveOutcome.errNotDeclared) ∧
    (∀ pj, fs (workspaceRoot ++ ["package.json"]) = some (some pj) →
        (truthyDep pj.dependencies packageName ||
         truthyDep pj.devDependencies packageName ||
         truthyDep pj.peerDependencies packageName) = true →
        removePackage fs pnpmOnPath yarnOnPath packageName workspaceRoot =
          RemoveOutcome.run
            (buildRemoveCommand
              (detectPackageManager fs workspaceRoot pnpmOnPath yarnOnPath) packageName
              (truthyDep pj.devDependencies ("@types/" ++ packageName) ||
               truthyDep pj.peerDependencies ("@types/" ++ packageName) ||
               truthyDep pj.dependencies ("@types/" ++ packageName)))) ∧
    (∀ packageManager : PM,
        buildRemoveCommand packageManager packageName true =
          buildRemoveCommand packageManager packageName false ++ " && " ++
            (match packageManager with
             | PM.npm => "npm uninstall " ++ ("@types/" ++ packageName)
             | PM.pnpm => "pnpm remove " ++ ("@types/" ++ packageName)
             | PM.yarn => "yarn remove " ++ ("@types/" ++ packageName))) := by
  refine ⟨?_, ?_, ?_, ?_, ?_⟩
  · intro h
    simp [removePackage, h]
  · intro h
    simp [removePackage, h]
  · intro pj hfs h1 h2 h3
    simp [removePackage, hfs, h1, h2, h3]
  · intro pj hfs hdecl
    have hcond : (!truthyDep pj.dependencies packageName &&
        !truthyDep pj.devDependencies packageName &&
        !truthyDep pj.peerDependencies packageName) = false := by
      revert hdecl
      cases truthyDep pj.dependencies packageName <;>
        cases truthyDep pj.devDependencies packageName <;>
          cases truthyDep pj.peerDependencies packageName <;> simp
    simp [removePackage, hfs, hcond]
  · intro packageManager
    cases packageManager <;> simp [buildRemoveCommand]

/-- Witness for the amended C10 theorem: no manifest, error outcome. -/
theorem remove_guards_and_types_witness :
    removePackage exFsEmpty false false "foo" dir10 = RemoveOutcome.errNoManifest :=
  (remove_guards_and_types exFsEmpty false false "foo" dir10).1 rfl

end FePilot
